import Mathlib

/-!
Verification of the KinOS agent scheduler (`managers/agent_runner.py`).

The scheduler (`AgentRunner`) coordinates a pool of named agents:
* `_get_available_agents` lists the agent types whose descriptor file
  `.aider.agent.<type>.md` exists on disk;
* `_select_available_agent` atomically (under `_agent_lock`) picks a random
  eligible agent not currently in `_active_agents`, inserts it and returns it;
* the `finally` blocks of `_run_single_agent_cycle` / `_execute_agent_cycle`
  conditionally remove the agent from `_active_agents` (checkin);
* `run` validates the mission file, generates missing agents, launches
  `min(agent_count, available)` initial cycles, and maintains the pool by
  replacing completed cycles.

The filesystem is modelled as the list of existing file names; the random
draw of `random.choice` is modelled by an index argument `k` (uniform over
indices); concurrency is modelled by a small-step transition relation in
which the body of `_select_available_agent` is one atomic step, faithful to
the source where the eligibility check and the insertion are executed while
holding `_agent_lock` with no intervening await.
-/

namespace Kinos

/-- The filesystem, as the list of names of existing files
(`os.path.exists f` becomes `f ∈ fs`). -/
abbrev FS := List String

/-- The literal `agent_types` list shared by `_agents_exist` and
`_get_available_agents` in `agent_runner.py`. -/
def agent_types : List String :=
  ["specification", "management", "writing", "evaluation", "deduplication",
   "chronicler", "redundancy", "production", "researcher", "integration"]

/-- The descriptor file name `.aider.agent.<type>.md` for an agent type. -/
def agentFile (t : String) : String := ".aider.agent." ++ t ++ ".md"

/-- `AgentRunner._get_available_agents`: the agent types whose descriptor
file exists, in the order of `agent_types`. -/
def get_available_agents (fs : FS) : List String :=
  agent_types.filter (fun t => agentFile t ∈ fs)

/-- `AgentRunner._agents_exist`: if `force_regenerate` return all agent
types, else the types whose descriptor file is missing. -/
def agents_exist (fs : FS) (force_regenerate : Bool) : List String :=
  if force_regenerate then agent_types
  else agent_types.filter (fun t => agentFile t ∉ fs)

/-- The `unused_agents` list computed inside `_select_available_agent`:
available agents not in `_active_agents`. -/
def unused_agents (fs : FS) (active : Finset String) : List String :=
  (get_available_agents fs).filter (fun a => a ∉ active)

/-- `AgentRunner._select_available_agent`, executed atomically under
`_agent_lock`.  `active` is `_active_agents`; the random draw of
`random.choice(unused_agents)` is modelled by the index `k % length`.
Returns the selected agent (or `none`) and the updated `_active_agents`. -/
def select_available_agent (fs : FS) (active : Finset String) (k : Nat) :
    Option String × Finset String :=
  let unused := unused_agents fs active
  if h : unused = [] then (none, active)
  else
    let a := unused.get ⟨k % unused.length, Nat.mod_lt _ (List.length_pos.mpr h)⟩
    (some a, insert a active)

/-- The conditional removal performed by the `finally` blocks of
`_run_single_agent_cycle` and `_execute_agent_cycle`:
`if agent_name in self._active_agents: self._active_agents.remove(agent_name)`. -/
def checkin (active : Finset String) (a : String) : Finset String :=
  if a ∈ active then active.erase a else active

theorem checkin_eq_erase (active : Finset String) (a : String) :
    checkin active a = active.erase a := by
  unfold checkin
  by_cases h : a ∈ active
  · simp [h]
  · simp [h, Finset.erase_eq_of_not_mem h]

/-! ### Agent cycle (`_run_single_agent_cycle`, `_execute_agent_cycle`) -/

/-- Outcome of the executor body of `_execute_agent_cycle`
(`objective_manager.generate_objective` followed by
`aider_manager.run_aider`): success, or an exception with a message. -/
inductive ExecOutcome
  | ok
  | error (msg : String)
deriving Repr, DecidableEq

/-- `AgentRunner._execute_agent_cycle` for a selected agent `name` (selected
names are agent types, hence non-empty, so the `if agent_name:` guard of the
`finally` block is taken): on error the `except` block logs and re-raises;
the `finally` block conditionally removes `name` from `_active_agents`.
Returns the updated `_active_agents` and whether the coroutine re-raised. -/
def execute_agent_cycle (active : Finset String) (name : String)
    (exec : ExecOutcome) : Finset String × Bool :=
  (checkin active name, match exec with | .ok => false | .error _ => true)

/-- Observable result of one `_run_single_agent_cycle` coroutine. -/
structure CycleResult where
  selected : Option String
  invokedExecutor : Bool
  slept : Bool
  raised : Bool
  active : Finset String
deriving DecidableEq

/-- `AgentRunner._run_single_agent_cycle`: select an agent; if none is
available, `await asyncio.sleep(1)` and return normally; otherwise run
`_execute_agent_cycle`; the outer `finally` conditionally removes the agent
again (a no-op after the inner `finally` already removed it). -/
def run_single_agent_cycle (fs : FS) (active : Finset String) (k : Nat)
    (exec : ExecOutcome) : CycleResult :=
  match select_available_agent fs active k with
  | (none, a1) => ⟨none, false, true, false, a1⟩
  | (some name, a1) =>
      let r := execute_agent_cycle a1 name exec
      ⟨some name, true, false, r.2, checkin r.1 name⟩

/-! ### Startup phase of `run` -/

/-- How `AgentRunner.run` terminates its startup phase. -/
inductive StartupOutcome
  | missionMissing
  | noAgentsError
  | noTasksError
  | started (initialTasks : Nat)
deriving Repr, DecidableEq

/-- The log lines of `run` that the claims mention. -/
inductive LogEvent
  | missionHelp
  | generatingAgents
  | startingAgents (n : Nat)
  | agentTaskFailed
  | replacedAgent (activeCount target : Nat)
  | couldNotReplace (pendingCount target availableCount : Nat)
  | executionError (msg : String)
deriving Repr, DecidableEq

/-- The filesystem seen by `run` after its agent-generation phase: when
`_agents_exist` reports agents to generate, `generate_agents` runs and the
filesystem becomes `fsGen` (the effect of the external generator is an
input of the model); otherwise the filesystem is unchanged. -/
def effective_fs (fs fsGen : FS) (generate : Bool) : FS :=
  if agents_exist fs generate = [] then fs else fsGen

/-- Startup phase of `AgentRunner.run`: the mission-file check
(`raise SystemExit(1)` on absence — `SystemExit` is not an `Exception`, so
the outer `except Exception` does not intercept it), agent generation, the
`🚀 Starting` log, the empty-pool check
(`ValueError("No agents available to run")`), creation of
`min(agent_count, len(available_agents))` initial tasks, and the empty-task
check (`ValueError("No tasks could be created")`).  Both `ValueError`s hit
the outer `except`, which logs `Error during execution: …` and re-raises. -/
def run_startup (missionExists generate : Bool) (fs fsGen : FS)
    (agent_count : Nat) : StartupOutcome × List LogEvent :=
  if !missionExists then (.missionMissing, [.missionHelp])
  else
    let genLogs : List LogEvent :=
      if agents_exist fs generate = [] then [] else [.generatingAgents]
    let available := get_available_agents (effective_fs fs fsGen generate)
    if available = [] then
      (.noAgentsError, genLogs ++ [.startingAgents agent_count,
        .executionError "No agents available to run"])
    else if min agent_count available.length = 0 then
      (.noTasksError, genLogs ++ [.startingAgents agent_count,
        .executionError "No tasks could be created"])
    else
      (.started (min agent_count available.length),
        genLogs ++ [.startingAgents agent_count])

/-! ### Maintain loop of `run` -/

/-- Processing of one completed task in the maintain loop of `run`: the
completed task is awaited inside `try` (an exception it raised is logged and
never propagated), the available-agent list is refreshed, and a replacement
task `newId` is created exactly when the pending count is below
`target` (= `agent_count`) and an eligible agent file exists; otherwise the
`⚠️ Could not replace agent` warning is logged.  `pending` is the set of
still-live tasks, as a list of task ids. -/
def process_done_task (raised : Bool) (pending : List Nat) (newId target : Nat)
    (fs : FS) : List Nat × List LogEvent :=
  let errLog : List LogEvent := if raised then [.agentTaskFailed] else []
  let available := get_available_agents fs
  if pending.length < target ∧ available ≠ [] then
    (pending ++ [newId], errLog ++ [.replacedAgent (pending.length + 1) target])
  else
    (pending, errLog ++ [.couldNotReplace pending.length target available.length])

/-- One iteration of the maintain loop: each task of the `done` set is
processed in turn (`flags` records whether each raised), fresh task ids
drawn `nid`, `nid+1`, …; the loop then continues with the resulting
pending set. -/
def process_done_list (flags : List Bool) (pending : List Nat) (nid target : Nat)
    (fs : FS) : List Nat × List LogEvent :=
  match flags with
  | [] => (pending, [])
  | r :: rest =>
      let x := process_done_task r pending nid target fs
      let y := process_done_list rest x.1 (nid + 1) target fs
      (y.1, x.2 ++ y.2)

/-! ### Trace semantics of the scheduler -/

/-- Global scheduler state: `_active_agents` together with the in-flight
agent-cycle coroutines, each recorded as the identity it currently holds
(`none` before `_select_available_agent` succeeds and after the `finally`
checkin). -/
structure SysState where
  active : Finset String
  jobs : List (Option String)
deriving DecidableEq

/-- The identities currently bound to a live cycle. -/
def boundIds (s : SysState) : List String := s.jobs.filterMap id

/-- Atomic transitions of the scheduler.  The whole body of
`_select_available_agent` is a single step because the source executes the
eligibility-and-not-busy check and the insertion while holding
`_agent_lock`, with no `await` in between.  The filesystem `fs` and the
random index `k` are free in each select step (eligibility may change
between polls).  `checkinStep` is the guarded removal performed by the
`finally` blocks; `spawn` and `finish` are task creation by `run` and task
completion observed by `asyncio.wait`. -/
inductive Step : SysState → SysState → Prop
  | spawn (s : SysState) :
      Step s ⟨s.active, s.jobs ++ [none]⟩
  | select (s : SysState) (i : Nat) (fs : FS) (k : Nat) (a : String)
      (act' : Finset String) (hi : s.jobs[i]? = some none)
      (hsel : select_available_agent fs s.active k = (some a, act')) :
      Step s ⟨act', s.jobs.set i (some a)⟩
  | checkinStep (s : SysState) (i : Nat) (a : String)
      (hi : s.jobs[i]? = some (some a)) :
      Step s ⟨checkin s.active a, s.jobs.set i none⟩
  | finish (s : SysState) (i : Nat) (hi : s.jobs[i]? = some none) :
      Step s ⟨s.active, s.jobs.eraseIdx i⟩

/-- The state right after `AgentRunner.__init__`: empty `_active_agents`,
no live cycles. -/
def initState : SysState := ⟨∅, []⟩

/-- States reachable by the scheduler from `initState`. -/
def Reachable (s : SysState) : Prop := Relation.ReflTransGen Step initState s

/-- The scheduler invariant: no identity is bound to two live cycles, every
bound identity is checked out, and the checkout set stays inside the fixed
agent-type universe. -/
def Inv (s : SysState) : Prop :=
  (boundIds s).Nodup ∧ (∀ a ∈ boundIds s, a ∈ s.active) ∧
    s.active ⊆ agent_types.toFinset

/-! ### Basic lemmas about selection -/

theorem agent_types_nodup : agent_types.Nodup := by decide

theorem agent_types_length : agent_types.length = 10 := by decide

theorem get_available_agents_sublist (fs : FS) :
    (get_available_agents fs).Sublist agent_types :=
  List.filter_sublist _

theorem get_available_agents_nodup (fs : FS) :
    (get_available_agents fs).Nodup :=
  (get_available_agents_sublist fs).nodup agent_types_nodup

theorem unused_agents_nodup (fs : FS) (active : Finset String) :
    (unused_agents fs active).Nodup :=
  ((List.filter_sublist _).nodup (get_available_agents_nodup fs))

theorem mem_unused_agents {fs : FS} {active : Finset String} {a : String} :
    a ∈ unused_agents fs active ↔ a ∈ get_available_agents fs ∧ a ∉ active := by
  simp [unused_agents, List.mem_filter]

theorem select_some_spec {fs : FS} {active : Finset String} {k : Nat}
    {a : String} {act' : Finset String}
    (h : select_available_agent fs active k = (some a, act')) :
    a ∈ get_available_agents fs ∧ a ∉ active ∧ act' = insert a active := by
  simp only [select_available_agent] at h
  split at h
  · simp at h
  · rename_i hne
    obtain ⟨h1, h2⟩ := Prod.mk.inj h
    have ha := Option.some.inj h1
    subst ha
    subst h2
    obtain ⟨hav, hnact⟩ := mem_unused_agents.mp (List.get_mem _ _ _)
    exact ⟨hav, hnact, rfl⟩

theorem select_isNone_iff (fs : FS) (active : Finset String) (k : Nat) :
    (select_available_agent fs active k).1 = none ↔
      unused_agents fs active = [] := by
  simp only [select_available_agent]
  split
  · rename_i h; simp [h]
  · rename_i h; simp [h]

theorem select_none_active (fs : FS) (active : Finset String) (k : Nat)
    (h : (select_available_agent fs active k).1 = none) :
    (select_available_agent fs active k).2 = active := by
  simp only [select_available_agent] at h ⊢
  split at h
  · rename_i hnil; simp [hnil]
  · simp at h

theorem select_small_index (fs : FS) (active : Finset String) (k : Nat)
    (hk : k < (unused_agents fs active).length) :
    (select_available_agent fs active k).1 =
      some ((unused_agents fs active).get ⟨k, hk⟩) := by
  simp only [select_available_agent]
  split
  · rename_i h; rw [h] at hk; simp at hk
  · simp [Nat.mod_eq_of_lt hk]

theorem select_surjective {fs : FS} {active : Finset String} {a : String}
    (hav : a ∈ get_available_agents fs) (hnact : a ∉ active) :
    ∃ k, (select_available_agent fs active k).1 = some a := by
  have hmem : a ∈ unused_agents fs active := mem_unused_agents.mpr ⟨hav, hnact⟩
  have hlt : (unused_agents fs active).indexOf a < (unused_agents fs active).length :=
    List.indexOf_lt_length.mpr hmem
  exact ⟨_, (select_small_index fs active _ hlt).trans
    (congrArg some (List.indexOf_get hlt))⟩

theorem select_injective {fs : FS} {active : Finset String} {k₁ k₂ : Nat}
    (h₁ : k₁ < (unused_agents fs active).length)
    (h₂ : k₂ < (unused_agents fs active).length)
    (h : (select_available_agent fs active k₁).1 =
         (select_available_agent fs active k₂).1) : k₁ = k₂ := by
  rw [select_small_index fs active k₁ h₁, select_small_index fs active k₂ h₂] at h
  have := (unused_agents_nodup fs active).get_inj_iff.mp (Option.some.inj h)
  exact congrArg Fin.val this

/-! ### List surgery lemmas for the trace invariant -/

theorem filterMap_set_some :
    ∀ (l : List (Option String)) (i : Nat), l[i]? = some none → ∀ a : String,
      List.Perm ((l.set i (some a)).filterMap id) (a :: l.filterMap id)
  | [], i, h, a => by simp at h
  | x :: xs, 0, h, a => by
      simp only [List.getElem?_cons_zero, Option.some.injEq] at h
      subst h
      simp [List.filterMap_cons]
  | x :: xs, i + 1, h, a => by
      simp only [List.getElem?_cons_succ] at h
      have ih := filterMap_set_some xs i h a
      cases x with
      | none => simpa [List.filterMap_cons] using ih
      | some b =>
          simp only [List.set_cons_succ, List.filterMap_cons, id]
          exact (ih.cons b).trans (List.Perm.swap a b _)

theorem filterMap_set_none :
    ∀ (l : List (Option String)) (i : Nat) (a : String), l[i]? = some (some a) →
      List.Perm (l.filterMap id) (a :: (l.set i none).filterMap id)
  | [], i, a, h => by simp at h
  | x :: xs, 0, a, h => by
      simp only [List.getElem?_cons_zero, Option.some.injEq] at h
      subst h
      simp [List.filterMap_cons]
  | x :: xs, i + 1, a, h => by
      simp only [List.getElem?_cons_succ] at h
      have ih := filterMap_set_none xs i a h
      cases x with
      | none => simpa [List.filterMap_cons] using ih
      | some b =>
          simp only [List.set_cons_succ, List.filterMap_cons, id]
          exact (ih.cons b).trans (List.Perm.swap a b _)

theorem filterMap_eraseIdx_none :
    ∀ (l : List (Option String)) (i : Nat), l[i]? = some none →
      (l.eraseIdx i).filterMap id = l.filterMap id
  | [], i, h => by simp at h
  | x :: xs, 0, h => by
      simp only [List.getElem?_cons_zero, Option.some.injEq] at h
      subst h
      simp [List.filterMap_cons]
  | x :: xs, i + 1, h => by
      simp only [List.getElem?_cons_succ] at h
      have ih := filterMap_eraseIdx_none xs i h
      cases x <;> simp [List.filterMap_cons, ih]

/-! ### Invariant preservation -/

theorem available_subset_agent_types {fs : FS} {a : String}
    (h : a ∈ get_available_agents fs) : a ∈ agent_types :=
  (List.mem_filter.mp h).1

theorem step_inv {s s' : SysState} (hstep : Step s s') (hinv : Inv s) :
    Inv s' := by
  obtain ⟨hnd, hsub, huniv⟩ := hinv
  cases hstep with
  | spawn =>
      refine ⟨?_, ?_, huniv⟩
      · simpa [boundIds, List.filterMap_append] using hnd
      · intro a ha
        exact hsub a (by simpa [boundIds, List.filterMap_append] using ha)
  | select i fs k a act' hi hsel =>
      obtain ⟨hav, hnact, hact⟩ := select_some_spec hsel
      subst hact
      have hperm := filterMap_set_some s.jobs i hi a
      have hanotb : a ∉ boundIds s := fun hmem => hnact (hsub a hmem)
      refine ⟨?_, ?_, ?_⟩
      · exact hperm.nodup_iff.mpr (List.nodup_cons.mpr ⟨hanotb, hnd⟩)
      · intro b hb
        have hb' : b ∈ a :: boundIds s := hperm.mem_iff.mp hb
        rcases List.mem_cons.mp hb' with hba | hbm
        · exact hba ▸ Finset.mem_insert_self a s.active
        · exact Finset.mem_insert_of_mem (hsub b hbm)
      · exact Finset.insert_subset
          (List.mem_toFinset.mpr (available_subset_agent_types hav)) huniv
  | checkinStep i a hi =>
      have hperm := filterMap_set_none s.jobs i a hi
      have hnd' : (a :: (SysState.mk (checkin s.active a)
          (s.jobs.set i none)).jobs.filterMap id).Nodup :=
        hperm.nodup_iff.mp hnd
      refine ⟨(List.nodup_cons.mp hnd').2, ?_, ?_⟩
      · intro b hb
        have hbmem : b ∈ boundIds s := hperm.mem_iff.mpr (List.mem_cons_of_mem a hb)
        have hbne : b ≠ a := fun hba => (List.nodup_cons.mp hnd').1 (hba ▸ hb)
        rw [checkin_eq_erase]
        exact Finset.mem_erase.mpr ⟨hbne, hsub b hbmem⟩
      · rw [checkin_eq_erase]
        exact (Finset.erase_subset a s.active).trans huniv
  | finish i hi =>
      refine ⟨?_, ?_, huniv⟩
      · simpa [boundIds, filterMap_eraseIdx_none s.jobs i hi] using hnd
      · intro b hb
        exact hsub b (by
          simpa [boundIds, filterMap_eraseIdx_none s.jobs i hi] using hb)

theorem inv_initState : Inv initState := by
  refine ⟨?_, ?_, ?_⟩ <;> simp [initState, boundIds, Inv]

theorem reachable_inv {s : SysState} (h : Reachable s) : Inv s := by
  induction h with
  | refl => exact inv_initState
  | tail _ hstep ih => exact step_inv hstep ih

/-- Full characterization of a cycle that successfully checked out `name`:
the executor is invoked, the coroutine re-raises exactly when the executor
failed, and the two `finally` blocks restore `_active_agents` (the selected
`name` was not in the set beforehand, is inserted by checkout and erased
again by checkin). -/
theorem cycle_some_eq {fs : FS} {active : Finset String} {k : Nat}
    {exec : ExecOutcome} {name : String}
    (h : (run_single_agent_cycle fs active k exec).selected = some name) :
    run_single_agent_cycle fs active k exec =
      ⟨some name, true, false,
        (match exec with | .ok => false | .error _ => true), active⟩ ∧
    name ∈ get_available_agents fs ∧ name ∉ active := by
  rcases hsel : select_available_agent fs active k with ⟨o, a1⟩
  cases o with
  | none =>
      simp only [run_single_agent_cycle, hsel] at h
      exact absurd h (by simp)
  | some nm =>
      obtain ⟨hav, hnact, ha1⟩ := select_some_spec hsel
      subst ha1
      simp only [run_single_agent_cycle, hsel, execute_agent_cycle] at h ⊢
      have hname : nm = name := by simpa using h
      subst hname
      refine ⟨?_, hav, hnact⟩
      cases exec <;>
        simp [checkin_eq_erase, Finset.erase_insert hnact,
          Finset.erase_eq_of_not_mem hnact]

/-! ### Claims -/

/-- C2: for every registry state, `_select_available_agent` selects one
identity that is eligible (its descriptor file exists) and not in the
checkout set, adds exactly that identity to the set and returns it; if no
such identity exists it returns `None` and leaves the set unchanged.  The
uniform-random draw of `random.choice` is modelled by the index `k`: every
index yields a candidate, every candidate is obtained for some index, and
distinct indices below the candidate count yield distinct candidates, so a
uniform index induces the uniform choice among candidates. -/
theorem claim_C2_checkout_semantics (fs : FS) (active : Finset String)
    (k : Nat) :
    (∀ a act', select_available_agent fs active k = (some a, act') →
        a ∈ get_available_agents fs ∧ a ∉ active ∧ act' = insert a active) ∧
    ((select_available_agent fs active k).1 = none ↔
        ∀ a ∈ get_available_agents fs, a ∈ active) ∧
    ((select_available_agent fs active k).1 = none →
        (select_available_agent fs active k).2 = active) ∧
    (∀ a, a ∈ get_available_agents fs → a ∉ active →
        ∃ j, (select_available_agent fs active j).1 = some a) ∧
    (∀ j₁ j₂, j₁ < (unused_agents fs active).length →
        j₂ < (unused_agents fs active).length →
        (select_available_agent fs active j₁).1 =
          (select_available_agent fs active j₂).1 → j₁ = j₂) := by
  refine ⟨fun a act' h => select_some_spec h, ?_,
    select_none_active fs active k,
    fun a hav hna => select_surjective hav hna,
    fun j₁ j₂ h₁ h₂ h => select_injective h₁ h₂ h⟩
  rw [select_isNone_iff]
  simp [unused_agents, List.filter_eq_nil_iff]

/-- Witness for C2 at a registry with exactly one eligible, free identity. -/
theorem claim_C2_witness :
    "writing" ∈ get_available_agents [agentFile "writing"] ∧
    "writing" ∉ (∅ : Finset String) ∧
    ({"writing"} : Finset String) = insert "writing" ∅ :=
  (claim_C2_checkout_semantics [agentFile "writing"] ∅ 0).1 "writing"
    {"writing"} (by decide)

/-- C3: the checkin operation (the guarded removal
`if agent_name in self._active_agents: self._active_agents.remove(...)`)
is idempotent, is a no-op on a non-member identity, and — being a total
function equal to `Finset.erase` — never raises (the `in` guard prevents
the `KeyError` that a bare `set.remove` would raise). -/
theorem claim_C3_checkin_idempotent (active : Finset String) (a : String) :
    checkin (checkin active a) a = checkin active a ∧
    (a ∉ active → checkin active a = active) ∧
    checkin active a = active.erase a := by
  refine ⟨?_, ?_, checkin_eq_erase active a⟩
  · simp [checkin_eq_erase, Finset.erase_idem]
  · intro h
    simp [checkin_eq_erase, Finset.erase_eq_of_not_mem h]

/-- Witness for C3: checking in an identity never checked out is a no-op. -/
theorem claim_C3_witness :
    checkin ({"writing"} : Finset String) "chronicler" = {"writing"} :=
  (claim_C3_checkin_idempotent {"writing"} "chronicler").2.1 (by decide)

/-- C7: when checkout returns `None`, the launched cycle takes the
`await asyncio.sleep(1)` branch and returns normally: bounded sleep, no
executor invocation, no exception, checkout set untouched. -/
theorem claim_C7_backoff (fs : FS) (active : Finset String) (k : Nat)
    (exec : ExecOutcome)
    (h : (select_available_agent fs active k).1 = none) :
    (run_single_agent_cycle fs active k exec).slept = true ∧
    (run_single_agent_cycle fs active k exec).invokedExecutor = false ∧
    (run_single_agent_cycle fs active k exec).raised = false ∧
    (run_single_agent_cycle fs active k exec).active = active := by
  have h2 := select_none_active fs active k h
  have hsel : select_available_agent fs active k = (none, active) :=
    Prod.ext h h2
  simp [run_single_agent_cycle, hsel]

/-- Witness for C7 on an empty filesystem (no eligible identity at all). -/
theorem claim_C7_witness :
    (run_single_agent_cycle [] ∅ 0 .ok).slept = true ∧
    (run_single_agent_cycle [] ∅ 0 .ok).invokedExecutor = false ∧
    (run_single_agent_cycle [] ∅ 0 .ok).raised = false ∧
    (run_single_agent_cycle [] ∅ 0 .ok).active = ∅ :=
  claim_C7_backoff [] ∅ 0 .ok (by decide)

/-- C8: every cycle that checked out an identity has removed it from the
checkout set by the time the coroutine finishes, on the success path and on
the raise path alike (the `finally` blocks of `_execute_agent_cycle` and
`_run_single_agent_cycle` both run); checkout happens-before the executor
launch (the executor is invoked exactly on the branch where selection
succeeded), and since the selected identity was fresh the two checkins
restore the checkout set exactly. -/
theorem claim_C8_checkin_after_completion (fs : FS) (active : Finset String)
    (k : Nat) (exec : ExecOutcome) (name : String)
    (h : (run_single_agent_cycle fs active k exec).selected = some name) :
    name ∉ (run_single_agent_cycle fs active k exec).active ∧
    (run_single_agent_cycle fs active k exec).active = active ∧
    (run_single_agent_cycle fs active k exec).invokedExecutor = true := by
  obtain ⟨heq, hav, hnact⟩ := cycle_some_eq h
  rw [heq]
  exact ⟨hnact, rfl, rfl⟩

/-- Witness for C8 on a failing executor run. -/
theorem claim_C8_witness :
    "production" ∉
      (run_single_agent_cycle [agentFile "production"] ∅ 0
        (.error "aider failed")).active ∧
    (run_single_agent_cycle [agentFile "production"] ∅ 0
        (.error "aider failed")).active = ∅ ∧
    (run_single_agent_cycle [agentFile "production"] ∅ 0
        (.error "aider failed")).invokedExecutor = true :=
  claim_C8_checkin_after_completion [agentFile "production"] ∅ 0
    (.error "aider failed") "production" (by decide)

/-- C10: when the mission file does not exist, `run` logs the guidance
block and raises `SystemExit(1)` (modelled by the `missionMissing`
outcome; `SystemExit` is not caught by the outer `except Exception`), with
no other effect: no agent generation, no startup log, no task launch —
the emitted log list is exactly the guidance block and the outcome carries
no launched tasks. -/
theorem claim_C10_mission_precondition (generate : Bool) (fs fsGen : FS)
    (agent_count : Nat) :
    run_startup false generate fs fsGen agent_count =
      (.missionMissing, [.missionHelp]) := by
  simp [run_startup]

/-- C4: a failing agent cycle re-raises after its `finally` block has freed
the identity; the maintain loop awaits the task inside `try`, so the
failure is logged and absorbed: the resulting pending set and the
replacement decision are exactly those of a successful completion (the
failure log is the only difference), every other live task survives the
iteration, and the loop continues. -/
theorem claim_C4_failure_isolation (fs : FS) (active : Finset String)
    (k : Nat) (msg : String) (pending : List Nat) (newId target : Nat)
    (name : String)
    (h : (run_single_agent_cycle fs active k (.error msg)).selected =
      some name) :
    name ∉ (run_single_agent_cycle fs active k (.error msg)).active ∧
    (run_single_agent_cycle fs active k (.error msg)).raised = true ∧
    (process_done_task true pending newId target fs).1 =
      (process_done_task false pending newId target fs).1 ∧
    (process_done_task true pending newId target fs).2 =
      .agentTaskFailed :: (process_done_task false pending newId target fs).2 ∧
    pending.Sublist (process_done_task true pending newId target fs).1 := by
  obtain ⟨heq, hav, hnact⟩ := cycle_some_eq h
  rw [heq]
  refine ⟨hnact, rfl, ?_, ?_, ?_⟩ <;>
    by_cases hc : pending.length < target ∧ get_available_agents fs ≠ [] <;>
      simp [process_done_task, hc, List.sublist_append_left]

/-- Witness for C4: a single-identity registry whose executor fails. -/
theorem claim_C4_witness :
    "writing" ∉
      (run_single_agent_cycle [agentFile "writing"] ∅ 0 (.error "boom")).active ∧
    (run_single_agent_cycle [agentFile "writing"] ∅ 0 (.error "boom")).raised
      = true :=
  ⟨(claim_C4_failure_isolation [agentFile "writing"] ∅ 0 "boom" [] 5 2
      "writing" (by decide)).1,
   (claim_C4_failure_isolation [agentFile "writing"] ∅ 0 "boom" [] 5 2
      "writing" (by decide)).2.1⟩

/-- Counterexample to C5 as stated: with the mission file present and a
non-empty eligible pool (all ten descriptor files exist, so no generation
runs), a requested agent count of 0 also makes the whole run fail —
`ValueError("No tasks could be created")` — so the empty pool is not the
only failure condition besides mission-file absence. -/
theorem claim_C5_counterexample :
    (run_startup true false (agent_types.map agentFile)
      (agent_types.map agentFile) 0).1 = .noTasksError ∧
    get_available_agents (agent_types.map agentFile) ≠ [] ∧
    (run_startup true false (agent_types.map agentFile)
      (agent_types.map agentFile) 0).1 ≠ .noAgentsError ∧
    (run_startup true false (agent_types.map agentFile)
      (agent_types.map agentFile) 0).1 ≠ .missionMissing := by decide

/-- C5 (amended): if the eligible set is empty at startup, `run` raises
`ValueError("No agents available to run")` before any task exists, and a
run fails at startup exactly when the mission file is missing, the
post-generation eligible set is empty, or the requested agent count is
zero (`ValueError("No tasks could be created")`); the last condition is
the one addition the counterexample forces. -/
theorem claim_C5_startup_failfast (missionExists generate : Bool)
    (fs fsGen : FS) (n : Nat) :
    (missionExists = true →
      get_available_agents (effective_fs fs fsGen generate) = [] →
      (run_startup missionExists generate fs fsGen n).1 = .noAgentsError) ∧
    ((∃ m, (run_startup missionExists generate fs fsGen n).1 = .started m) ↔
      missionExists = true ∧
      get_available_agents (effective_fs fs fsGen generate) ≠ [] ∧
      0 < n) := by
  cases missionExists with
  | false => simp [run_startup]
  | true =>
      by_cases hav : get_available_agents (effective_fs fs fsGen generate) = []
      · simp [run_startup, hav]
      · have hlen : (get_available_agents (effective_fs fs fsGen generate)).length ≠ 0 :=
          fun h0 => hav (List.length_eq_zero.mp h0)
        by_cases hn : n = 0
        · subst hn
          simp [run_startup, hav]
        · have hmin : min n (get_available_agents
              (effective_fs fs fsGen generate)).length ≠ 0 := by
            intro h0
            rcases Nat.min_eq_zero_iff.mp h0 with h | h
            · exact hn h
            · exact hlen h
          simp [run_startup, hav, hmin, hn, Nat.pos_of_ne_zero hn]

/-- Witness for C5: empty filesystem and failed generation — startup
fails with the empty-pool error. -/
theorem claim_C5_witness :
    (run_startup true false [] [] 3).1 = .noAgentsError :=
  (claim_C5_startup_failfast true false [] [] 3).1 rfl (by decide)

/-- The filesystem of spec Scenario B: exactly the descriptor files of
`specification` and `management` exist, so two identities are eligible. -/
def scenarioB_fs : FS := [agentFile "specification", agentFile "management"]

/-- Counterexample to C6 as stated: in Scenario B (target 3, two eligible
identities, generation leaving the filesystem unchanged) startup logs only
the generation notice and the generic `🚀 Starting with 3 agents` line —
no could-not-meet-target message — and a steady-state iteration (one task
completed, one still pending) takes the replacement branch, logging the
`Replaced completed agent … 2/3` info line and no `⚠️ Could not replace`
warning, because `len(pending) < agent_count and available_agents` holds. -/
theorem claim_C6_counterexample :
    run_startup true false scenarioB_fs scenarioB_fs 3 =
      (.started 2, [.generatingAgents, .startingAgents 3]) ∧
    process_done_task false [1] 2 3 scenarioB_fs =
      ([1, 2], [.replacedAgent 2 3]) := by decide

/-- C6 (amended): `run` launches exactly `min(N, available)` initial
cycles and never fails because the target exceeds the eligible count; in
Scenario B (N = 3, two eligible identities) every maintain-loop iteration
restores the pending set to two tasks — the scheduler keeps running with
two active cycles indefinitely — but it logs per-replacement info lines
(`Active agents: 2/3`) rather than a could-not-meet-target warning; the
`⚠️ Could not replace agent` warning is emitted in an iteration exactly
when a completed task is not replaced, i.e. when the pending count already
meets the target or no eligible identity exists. -/
theorem claim_C6_under_provisioned :
    (∀ (generate : Bool) (fs fsGen : FS) (n m : Nat),
        (run_startup true generate fs fsGen n).1 = .started m →
        m = min n (get_available_agents (effective_fs fs fsGen generate)).length) ∧
    (∀ (generate : Bool) (fs fsGen : FS) (n : Nat),
        get_available_agents (effective_fs fs fsGen generate) ≠ [] → 0 < n →
        (run_startup true generate fs fsGen n).1 =
          .started (min n (get_available_agents (effective_fs fs fsGen generate)).length)) ∧
    (∀ (flags : List Bool) (pending : List Nat) (nid : Nat),
        flags ≠ [] → flags.length + pending.length = 2 →
        (process_done_list flags pending nid 3 scenarioB_fs).1.length = 2 ∧
        ∀ p t a, LogEvent.couldNotReplace p t a ∉
          (process_done_list flags pending nid 3 scenarioB_fs).2) ∧
    (∀ (raised : Bool) (pending : List Nat) (nid t : Nat) (fs : FS),
        (∃ p tg av, LogEvent.couldNotReplace p tg av ∈
            (process_done_task raised pending nid t fs).2) ↔
          ¬(pending.length < t ∧ get_available_agents fs ≠ [])) := by
  have havB : get_available_agents scenarioB_fs = ["specification", "management"] := by
    decide
  refine ⟨?_, ?_, ?_, ?_⟩
  · intro generate fs fsGen n m h
    by_cases hav : get_available_agents (effective_fs fs fsGen generate) = []
    · simp [run_startup, hav] at h
    · by_cases hmin : min n (get_available_agents
          (effective_fs fs fsGen generate)).length = 0
      · simp [run_startup, hav, hmin] at h
      · simp [run_startup, hav, hmin] at h
        exact h.symm
  · intro generate fs fsGen n hav hn
    have hlen : (get_available_agents (effective_fs fs fsGen generate)).length ≠ 0 :=
      fun h0 => hav (List.length_eq_zero.mp h0)
    have hmin : min n (get_available_agents
        (effective_fs fs fsGen generate)).length ≠ 0 := by
      intro h0
      rcases Nat.min_eq_zero_iff.mp h0 with h | h
      · exact absurd h (Nat.pos_iff_ne_zero.mp hn)
      · exact hlen h
    simp [run_startup, hav, hmin]
  · intro flags pending nid hne hlen
    rcases flags with _ | ⟨r1, rest⟩
    · exact absurd rfl hne
    rcases rest with _ | ⟨r2, rest2⟩
    · -- one completed task, one still pending
      have hp : pending.length = 1 := by
        simp at hlen
        omega
      have hcond : pending.length < 3 ∧ get_available_agents scenarioB_fs ≠ [] := by
        rw [hp, havB]; exact ⟨by norm_num, by simp⟩
      constructor
      · simp [process_done_list, process_done_task, hcond, hp]
      · intro p t a
        cases r1 <;> simp [process_done_list, process_done_task, hcond]
    · rcases rest2 with _ | ⟨r3, rest3⟩
      · -- two completed tasks, none pending
        have hp : pending.length = 0 := by
          simpa [Nat.add_comm] using hlen
        have hpe : pending = [] := List.length_eq_zero.mp hp
        subst hpe
        have hcond0 : ([] : List Nat).length < 3 ∧
            get_available_agents scenarioB_fs ≠ [] := by
          rw [havB]; exact ⟨by norm_num, by simp⟩
        have hcond1 : ([nid] : List Nat).length < 3 ∧
            get_available_agents scenarioB_fs ≠ [] := by
          rw [havB]; exact ⟨by norm_num, by simp⟩
        constructor
        · simp [process_done_list, process_done_task, hcond0, hcond1]
        · intro p t a
          cases r1 <;> cases r2 <;>
            simp [process_done_list, process_done_task, hcond0, hcond1]
      · -- three or more completed tasks cannot sum to two with the pool
        simp at hlen
        omega
  · intro raised pending nid t fs
    by_cases hc : pending.length < t ∧ get_available_agents fs ≠ []
    · constructor
      · rintro ⟨p, tg, av, hmem⟩
        cases raised <;> simp [process_done_task, hc] at hmem
      · intro h
        exact absurd hc h
    · constructor
      · intro _
        exact hc
      · intro _
        refine ⟨pending.length, t, (get_available_agents fs).length, ?_⟩
        cases raised <;> simp [process_done_task, hc]

/-- Witness for C6: one completed task with one still pending in
Scenario B is replaced, restoring two live tasks. -/
theorem claim_C6_witness :
    (process_done_list [false] [0] 1 3 scenarioB_fs).1.length = 2 :=
  ((claim_C6_under_provisioned).2.2.1 [false] [0] 1 (by decide) (by decide)).1

/-- Two distinct positions of a list of options cannot hold the same
`some a` when the list of bound values has no duplicates. -/
theorem nodup_filterMap_pairwise :
    ∀ (l : List (Option String)), (l.filterMap id).Nodup →
      ∀ (a : String) (i j : Nat) (hi : i < l.length) (hj : j < l.length),
        i ≠ j → l.get ⟨i, hi⟩ = some a → l.get ⟨j, hj⟩ = some a → False
  | [], _, _, i, _, hi, _, _, _, _ => absurd hi (by simp)
  | x :: xs, hnd, a, 0, 0, _, _, hij, _, _ => absurd rfl hij
  | x :: xs, hnd, a, 0, j + 1, hi, hj, _, hgi, hgj => by
      have hx : x = some a := hgi
      subst hx
      have hfm : (some a :: xs).filterMap id = a :: xs.filterMap id := by simp
      rw [hfm] at hnd
      have hgj2 : xs.get ⟨j, Nat.lt_of_succ_lt_succ hj⟩ = some a := hgj
      have hmem : a ∈ xs.filterMap id :=
        List.mem_filterMap.mpr ⟨some a, hgj2 ▸ List.get_mem xs _ _, rfl⟩
      exact (List.nodup_cons.mp hnd).1 hmem
  | x :: xs, hnd, a, i + 1, 0, hi, hj, _, hgi, hgj => by
      have hx : x = some a := hgj
      subst hx
      have hfm : (some a :: xs).filterMap id = a :: xs.filterMap id := by simp
      rw [hfm] at hnd
      have hgi2 : xs.get ⟨i, Nat.lt_of_succ_lt_succ hi⟩ = some a := hgi
      have hmem : a ∈ xs.filterMap id :=
        List.mem_filterMap.mpr ⟨some a, hgi2 ▸ List.get_mem xs _ _, rfl⟩
      exact (List.nodup_cons.mp hnd).1 hmem
  | x :: xs, hnd, a, i + 1, j + 1, hi, hj, hij, hgi, hgj => by
      have hnd' : (xs.filterMap id).Nodup := by
        cases x with
        | none => simpa [List.filterMap_cons_none] using hnd
        | some b =>
            have hfm : (some b :: xs).filterMap id = b :: xs.filterMap id := by
              simp
            rw [hfm] at hnd
            exact (List.nodup_cons.mp hnd).2
      exact nodup_filterMap_pairwise xs hnd' a i j
        (Nat.succ_lt_succ_iff.mp hi) (Nat.succ_lt_succ_iff.mp hj)
        (fun h => hij (congrArg Nat.succ h)) hgi hgj

/-- C1: along every execution trace from the initial scheduler state, no
two live cycles are ever bound to the same identity (the bound identities
are pairwise distinct at every reachable state), and checkout can never
hand out an identity that is already in `_active_agents` — the
eligibility-and-not-busy check and the insertion happen in the same
critical section, modelled as the single atomic `select` step. -/
theorem claim_C1_mutual_exclusion (s : SysState) (h : Reachable s) :
    (boundIds s).Nodup ∧
    (∀ (a : String) (i j : Nat) (hi : i < s.jobs.length)
        (hj : j < s.jobs.length), i ≠ j →
        s.jobs.get ⟨i, hi⟩ = some a → s.jobs.get ⟨j, hj⟩ = some a → False) ∧
    (∀ (fs : FS) (k : Nat) (a : String) (act' : Finset String),
        a ∈ s.active → select_available_agent fs s.active k ≠ (some a, act')) := by
  obtain ⟨hnd, _, _⟩ := reachable_inv h
  refine ⟨hnd, nodup_filterMap_pairwise s.jobs hnd, ?_⟩
  intro fs k a act' hmem heq
  exact (select_some_spec heq).2.1 hmem

/-- Witness for C1 along a concrete two-step trace: a cycle is spawned and
checks out `writing` from a one-identity registry. -/
theorem claim_C1_witness :
    (boundIds ⟨{"writing"}, [some "writing"]⟩).Nodup :=
  (claim_C1_mutual_exclusion ⟨{"writing"}, [some "writing"]⟩
    ((Relation.ReflTransGen.refl.tail (Step.spawn initState)).tail
      (Step.select ⟨∅, [none]⟩ 0 [agentFile "writing"] 0 "writing"
        {"writing"} (by decide) (by decide)))).1

/-- C9: the eligible list is always a sublist (subset, in the fixed order)
of the ten-element `agent_types` list, so along every trace the checkout
set stays inside that universe and neither the checkout set nor the number
of identity-bound live cycles can exceed ten, whatever the requested pool
target. -/
theorem claim_C9_bounded_universe (fs : FS) (s : SysState)
    (h : Reachable s) :
    (get_available_agents fs).Sublist agent_types ∧
    agent_types.length = 10 ∧
    (get_available_agents fs).length ≤ 10 ∧
    s.active ⊆ agent_types.toFinset ∧
    s.active.card ≤ 10 ∧
    (boundIds s).length ≤ 10 := by
  obtain ⟨hnd, hsub, huniv⟩ := reachable_inv h
  have h10 : agent_types.toFinset.card = 10 := by decide
  refine ⟨get_available_agents_sublist fs, agent_types_length, ?_, huniv, ?_, ?_⟩
  · exact agent_types_length ▸ (get_available_agents_sublist fs).length_le
  · have := Finset.card_le_card huniv
    omega
  · have hsub2 : (boundIds s).toFinset ⊆ agent_types.toFinset := fun a ha =>
      huniv (hsub a (List.mem_toFinset.mp ha))
    have hcard := Finset.card_le_card hsub2
    rw [List.toFinset_card_of_nodup hnd] at hcard
    omega

/-- Witness for C9 at the initial state with a one-file registry. -/
theorem claim_C9_witness :
    (get_available_agents [agentFile "writing"]).length ≤ 10 ∧
    initState.active.card ≤ 10 :=
  ⟨(claim_C9_bounded_universe [agentFile "writing"] initState
      Relation.ReflTransGen.refl).2.2.1,
   (claim_C9_bounded_universe [agentFile "writing"] initState
      Relation.ReflTransGen.refl).2.2.2.2.1⟩

end Kinos
